import Mathlib

/-!
Shallow embedding of the `phemap` query engine (`phemap/phemap.py`).

The engine loads two tables — phenotype definitions (`self.phecodes`) and
the icd10-to-phecode map (`self.phecodemap`) — and answers five read-only
queries.  Rows are modelled as structures of string fields; the derived
numeric column (`pd.to_numeric` / `float(...)`) is modelled by exact
rational parsing of the non-negative decimal literals that phecode fields
use.  Fallible operations return `Except PhemapError`; both error kinds
correspond to Python `ValueError`, split as the spec splits them into
"not found" (query misses, unparseable query key) and "malformed"
(unparseable exclude-range data).
-/

deriving instance DecidableEq for Except

/-- Python `str.split` with a one-character separator: splits a character
list at every occurrence of `sep`, keeping empty pieces, so the result
always has one more piece than there are separators. -/
def splitOnChar (sep : Char) : List Char → List (List Char)
  | [] => [[]]
  | c :: rest =>
    match splitOnChar sep rest with
    | [] => [[]]
    | h :: t => if c = sep then [] :: h :: t else (c :: h) :: t

/-- Numeric value of a list of decimal digits, most significant first. -/
def digitsToNat (l : List Char) : Nat :=
  l.foldl (fun a c => 10 * a + (c.toNat - 48)) 0

/-- Models Python `float` / `pd.to_numeric` on the non-negative decimal
literals used by phecode fields (`"495"`, `"038.1"`, `"498.99"`): an
optional integer part, an optional single dot, an optional fractional
part, at least one digit overall.  Returns the exact rational value of the
literal, `none` when the characters are not such a literal. -/
def parseDecimalChars (cs : List Char) : Option ℚ :=
  match splitOnChar '.' cs with
  | [a] =>
    if !a.isEmpty && a.all Char.isDigit then
      some (mkRat (digitsToNat a) 1)
    else
      none
  | [a, b] =>
    if (!a.isEmpty || !b.isEmpty) && a.all Char.isDigit
        && b.all Char.isDigit then
      some (mkRat (digitsToNat a * 10 ^ b.length + digitsToNat b) (10 ^ b.length))
    else
      none
  | _ => none

/-- `parseDecimalChars` on the characters of a string. -/
def parseDecimal (s : String) : Option ℚ :=
  parseDecimalChars s.toList

/-- One raw row of the phenotype definitions file, after the reader has
assigned the canonical column names (`cols_phecodes` in `__init__`).  The
`sex` column may be missing (`nan` in the source examples). -/
structure PhenotypeRow where
  phecode : String
  phenotype : String
  phecode_exclude_range : String
  sex : Option String
  rollup : String
  leaf : String
  category_number : String
  category : String
  deriving DecidableEq

/-- A loaded phenotype record: the raw row plus the derived numeric column
`phecode_num` added by `__init__` via `pd.to_numeric`. -/
structure PhenotypeRecord extends PhenotypeRow where
  phecode_num : ℚ
  deriving DecidableEq

/-- One raw row of the icd10-to-phecode mapping file (`cols_phecodemap`). -/
structure MappingRow where
  icd10 : String
  phecode : String
  phecode_exclude_range : String
  phenotype_exlude : String
  deriving DecidableEq

/-- A loaded mapping record: the raw row plus the derived numeric column
`phecode_num` added by `__init__`. -/
structure MappingRecord extends MappingRow where
  phecode_num : ℚ
  deriving DecidableEq

/-- The engine state: the two loaded tables, in file order. -/
structure Phemap where
  phecodes : List PhenotypeRecord
  phecodemap : List MappingRecord
  deriving DecidableEq

/-- The two error kinds of the spec.  Both are raised as `ValueError` by
the Python source; the constructors record which contract clause fired and
the offending key or field. -/
inductive PhemapError where
  | notFound (key : String)
  | malformed (field : String)
  deriving DecidableEq

/-- Derivation of one phenotype record: `pd.to_numeric` on the `phecode`
column, failing when the code is not numeric. -/
def loadPhenotypeRecord (r : PhenotypeRow) : Option PhenotypeRecord :=
  (parseDecimal r.phecode).map fun q => { toPhenotypeRow := r, phecode_num := q }

/-- Derivation of one mapping record: `pd.to_numeric` on the `phecode`
column, failing when the code is not numeric. -/
def loadMappingRecord (r : MappingRow) : Option MappingRecord :=
  (parseDecimal r.phecode).map fun q => { toMappingRow := r, phecode_num := q }

/-- `Phemap.__init__`: load both tables, adding the `phecode_num` column to
each; fails when any `phecode` cell of either table is not numeric. -/
def Phemap.init (source : List PhenotypeRow) (mapping : List MappingRow) :
    Option Phemap :=
  match source.mapM loadPhenotypeRecord, mapping.mapM loadMappingRecord with
  | some ps, some ms => some ⟨ps, ms⟩
  | _, _ => none

/-- `Phemap.get_phecode_info`: convert the query key with `float`, keep the
rows whose `phecode_num` equals it, return the first match as a record;
raise when the key does not parse or no row matches. -/
def get_phecode_info (pm : Phemap) (phecode : String) :
    Except PhemapError PhenotypeRecord :=
  match parseDecimal phecode with
  | none => .error (.notFound phecode)
  | some q =>
    match pm.phecodes.filter (fun r => decide (r.phecode_num = q)) with
    | [] => .error (.notFound phecode)
    | m :: _ => .ok m

/-- `Phemap.get_phecode_for_icd10`: keep the mapping rows whose `icd10`
column equals the query string exactly, return their `phecode` values in
table order; raise when no row matches. -/
def get_phecode_for_icd10 (pm : Phemap) (icd10 : String) :
    Except PhemapError (List String) :=
  match pm.phecodemap.filter (fun r => decide (r.icd10 = icd10)) with
  | [] => .error (.notFound icd10)
  | l => .ok (l.map (·.phecode))

/-- `Phemap.get_icd_for_phecode`: convert the query key with `float`, keep
the mapping rows whose `phecode_num` equals it, return their `icd10`
values in table order; raise when the key does not parse or no row
matches. -/
def get_icd_for_phecode (pm : Phemap) (phecode : String) :
    Except PhemapError (List String) :=
  match parseDecimal phecode with
  | none => .error (.notFound phecode)
  | some q =>
    match pm.phecodemap.filter (fun r => decide (r.phecode_num = q)) with
    | [] => .error (.notFound phecode)
    | l => .ok (l.map (·.icd10))

/-- The range-parsing step of `get_phecode_exclusions`:
`(ex_start, ex_end) = excl_range.split('-')` followed by `float` on both
halves.  `none` models the Python `ValueError` raised either by the tuple
unpacking (not exactly two pieces) or by `float` (a non-numeric piece). -/
def parseRange (cs : List Char) : Option (ℚ × ℚ) :=
  match splitOnChar '-' cs with
  | [ex_start, ex_end] =>
    match parseDecimalChars ex_start, parseDecimalChars ex_end with
    | some lo, some hi => some (lo, hi)
    | _, _ => none
  | _ => none

/-- `Phemap.get_phecode_exclusions`: resolve the record via
`get_phecode_info`, split its `phecode_exclude_range` on `-` into exactly
two halves, parse both with `float`, and return the `phecode` values of
every definition row whose `phecode_num` lies in the closed interval, in
table order.  A failed split or parse is the Python `ValueError` the spec
calls `MalformedInputError`. -/
def get_phecode_exclusions (pm : Phemap) (phecode : String) :
    Except PhemapError (List String) :=
  match get_phecode_info pm phecode with
  | .error e => .error e
  | .ok info =>
    match parseRange info.phecode_exclude_range.toList with
    | some (lo, hi) =>
      .ok ((pm.phecodes.filter
        (fun r => decide (lo ≤ r.phecode_num) && decide (r.phecode_num ≤ hi))).map
        (·.phecode))
    | none => .error (.malformed info.phecode_exclude_range)

/-- `Phemap.get_all_phecodes`: every loaded definition record, table
order, no filtering. -/
def get_all_phecodes (pm : Phemap) : List PhenotypeRecord :=
  pm.phecodes

/-- One query request to the engine, covering all five operations. -/
inductive Op where
  | getInfo (phecode : String)
  | phecodeForIcd (icd10 : String)
  | icdForPhecode (phecode : String)
  | getExclusions (phecode : String)
  | getAll
  deriving DecidableEq

/-- The observable result of one query. -/
inductive OpResult where
  | record (r : PhenotypeRecord)
  | codes (l : List String)
  | records (l : List PhenotypeRecord)
  deriving DecidableEq

/-- Run one query against the engine, returning its result together with
the engine state afterwards.  No method of the Python class assigns to
`self`, so each operation passes the state through unchanged; this is the
explicit state-passing form of the source methods. -/
def runOp (pm : Phemap) (op : Op) : Except PhemapError OpResult × Phemap :=
  match op with
  | .getInfo c => ((get_phecode_info pm c).map .record, pm)
  | .phecodeForIcd c => ((get_phecode_for_icd10 pm c).map .codes, pm)
  | .icdForPhecode c => ((get_icd_for_phecode pm c).map .codes, pm)
  | .getExclusions c => ((get_phecode_exclusions pm c).map .codes, pm)
  | .getAll => (.ok (.records (get_all_phecodes pm)), pm)

/-- Run a sequence of queries, threading the engine state. -/
def runOps (pm : Phemap) : List Op → Phemap
  | [] => pm
  | op :: rest => runOps (runOp pm op).2 rest

/-- The load invariant: every record of either table carries, in
`phecode_num`, exactly the numeric parse of its `phecode` string.
`Phemap.init` establishes this (see `init_wf`). -/
def PhemapWF (pm : Phemap) : Prop :=
  (∀ r ∈ pm.phecodes, parseDecimal r.phecode = some r.phecode_num) ∧
  (∀ r ∈ pm.phecodemap, parseDecimal r.phecode = some r.phecode_num)

/-- Builder for concrete definition rows used by the examples below; all
metadata fields other than the code and the exclude range are fixed. -/
def sampleRow (c xr : String) : PhenotypeRow :=
  ⟨c, "phenotype", xr, none, "1", "0", "9", "respiratory"⟩

/-- Raw definition rows of a small reference table, shaped like the
asthma example of the module docstring. -/
def sampleSource : List PhenotypeRow :=
  [sampleRow "490" "490-498.99", sampleRow "495" "490-498.99",
   sampleRow "499" "499-499"]

/-- Raw mapping rows going with `sampleSource`. -/
def sampleMapping : List MappingRow :=
  [⟨"J45.1", "495", "490-498.99", ""⟩, ⟨"B21.1", "202.2", "", ""⟩]

/-- The engine `Phemap.init` builds from `sampleSource` and
`sampleMapping`. -/
def samplePm : Phemap :=
  ⟨[⟨sampleRow "490" "490-498.99", mkRat 490 1⟩,
    ⟨sampleRow "495" "490-498.99", mkRat 495 1⟩,
    ⟨sampleRow "499" "499-499", mkRat 499 1⟩],
   [⟨⟨"J45.1", "495", "490-498.99", ""⟩, mkRat 495 1⟩,
    ⟨⟨"B21.1", "202.2", "", ""⟩, mkRat 2022 10⟩]⟩

/-- An engine whose definition table spells the numeric value 8 twice,
as `"8"` and as `"008"` — two distinct code strings with equal
`phecode_num`, as the leading-zero convention of the reference data
allows. -/
def dupPm : Phemap :=
  ⟨[⟨sampleRow "490" "490-498.99", mkRat 490 1⟩,
    ⟨sampleRow "8" "001-009.99", mkRat 8 1⟩,
    ⟨sampleRow "008" "001-009.99", mkRat 8 1⟩],
   []⟩

/-- An engine whose mapping table stores the phecode of `"B21.1"` as
`"71.1"`, without the leading zero a caller may use in a query. -/
def zeroMapPm : Phemap :=
  ⟨[], [⟨⟨"B21.1", "71.1", "", ""⟩, mkRat 711 10⟩]⟩

/-- An engine with a record whose exclude range does not parse: the
second half of `"100-1a1"` is not numeric. -/
def badRangePm : Phemap :=
  ⟨[⟨sampleRow "100" "100-1a1", mkRat 100 1⟩], []⟩

/-- The raw rows behind `badRangePm`; their codes all parse, so loading
succeeds even though an exclude range is malformed. -/
def badRangeSource : List PhenotypeRow :=
  [sampleRow "100" "100-1a1"]

/-- An engine with a single record whose exclude range `"200-300"`
contains no record at all, its own code included. -/
def emptyRangePm : Phemap :=
  ⟨[⟨sampleRow "100" "200-300", mkRat 100 1⟩], []⟩

/-! ### Supporting lemmas -/

/-- A successful `mapM` over `Option` yields a list of the same length. -/
theorem mapM_option_length {α β : Type} (f : α → Option β) :
    ∀ (l : List α) (l2 : List β), l.mapM f = some l2 → l2.length = l.length := by
  intro l
  induction l with
  | nil =>
    intro l2 h
    rw [List.mapM_nil] at h
    cases h
    rfl
  | cons a t ih =>
    intro l2 h
    rw [List.mapM_cons] at h
    cases hfa : f a with
    | none => rw [hfa] at h; simp at h
    | some b =>
      rw [hfa] at h
      cases ht : t.mapM f with
      | none => rw [ht] at h; simp at h
      | some bs =>
        rw [ht] at h
        simp at h
        subst h
        simp [ih bs ht]

/-- Every element of a successful `mapM` over `Option` is the image of
some input element. -/
theorem mapM_option_mem {α β : Type} (f : α → Option β) :
    ∀ (l : List α) (l2 : List β), l.mapM f = some l2 →
      ∀ b ∈ l2, ∃ a ∈ l, f a = some b := by
  intro l
  induction l with
  | nil =>
    intro l2 h
    rw [List.mapM_nil] at h
    cases h
    intro b hb
    cases hb
  | cons a t ih =>
    intro l2 h
    rw [List.mapM_cons] at h
    cases hfa : f a with
    | none => rw [hfa] at h; simp at h
    | some b =>
      rw [hfa] at h
      cases ht : t.mapM f with
      | none => rw [ht] at h; simp at h
      | some bs =>
        rw [ht] at h
        simp at h
        subst h
        intro x hx
        rcases List.mem_cons.mp hx with hx | hx
        · subst hx
          exact ⟨a, List.mem_cons_self a t, hfa⟩
        · obtain ⟨a0, ha0, hfa0⟩ := ih bs ht x hx
          exact ⟨a0, List.mem_cons_of_mem a ha0, hfa0⟩

/-- A `mapM` over `Option` succeeds when `f` succeeds on every element. -/
theorem mapM_option_isSome {α β : Type} (f : α → Option β) :
    ∀ l : List α, (∀ a ∈ l, (f a).isSome) → (l.mapM f).isSome := by
  intro l
  induction l with
  | nil => intro _; rw [List.mapM_nil]; rfl
  | cons a t ih =>
    intro h
    rw [List.mapM_cons]
    cases hfa : f a with
    | none =>
      have := h a (List.mem_cons_self a t)
      rw [hfa] at this
      cases this
    | some b =>
      have ht := ih fun x hx => h x (List.mem_cons_of_mem a hx)
      cases hmt : t.mapM f with
      | none => rw [hmt] at ht; cases ht
      | some bs => simp

/-- A successful load of one phenotype row keeps the raw fields and
stores the parse of the code in `phecode_num`. -/
theorem loadPhenotypeRecord_eq_some (r : PhenotypeRow) (rec : PhenotypeRecord)
    (h : loadPhenotypeRecord r = some rec) :
    rec.toPhenotypeRow = r ∧ parseDecimal rec.phecode = some rec.phecode_num := by
  unfold loadPhenotypeRecord at h
  cases hp : parseDecimal r.phecode with
  | none => rw [hp] at h; cases h
  | some q =>
    rw [hp] at h
    cases h
    exact ⟨rfl, hp⟩

/-- A successful load of one mapping row keeps the raw fields and stores
the parse of the code in `phecode_num`. -/
theorem loadMappingRecord_eq_some (r : MappingRow) (rec : MappingRecord)
    (h : loadMappingRecord r = some rec) :
    rec.toMappingRow = r ∧ parseDecimal rec.phecode = some rec.phecode_num := by
  unfold loadMappingRecord at h
  cases hp : parseDecimal r.phecode with
  | none => rw [hp] at h; cases h
  | some q =>
    rw [hp] at h
    cases h
    exact ⟨rfl, hp⟩

/-- Decomposition of a successful `Phemap.init`. -/
theorem init_eq_some (source : List PhenotypeRow) (mapping : List MappingRow)
    (pm : Phemap) (h : Phemap.init source mapping = some pm) :
    source.mapM loadPhenotypeRecord = some pm.phecodes ∧
    mapping.mapM loadMappingRecord = some pm.phecodemap := by
  unfold Phemap.init at h
  cases hs : source.mapM loadPhenotypeRecord with
  | none => rw [hs] at h; cases h
  | some ps =>
    rw [hs] at h
    cases hm : mapping.mapM loadMappingRecord with
    | none => rw [hm] at h; cases h
    | some ms =>
      rw [hm] at h
      cases h
      exact ⟨rfl, rfl⟩

/-- `Phemap.init` establishes the load invariant `PhemapWF`. -/
theorem init_wf (source : List PhenotypeRow) (mapping : List MappingRow)
    (pm : Phemap) (h : Phemap.init source mapping = some pm) : PhemapWF pm := by
  obtain ⟨hs, hm⟩ := init_eq_some source mapping pm h
  constructor
  · intro r hr
    obtain ⟨a, _, hfa⟩ := mapM_option_mem loadPhenotypeRecord source pm.phecodes hs r hr
    exact (loadPhenotypeRecord_eq_some a r hfa).2
  · intro r hr
    obtain ⟨a, _, hfa⟩ := mapM_option_mem loadMappingRecord mapping pm.phecodemap hm r hr
    exact (loadMappingRecord_eq_some a r hfa).2

/-- No query mutates the engine state. -/
theorem runOp_state (pm : Phemap) (op : Op) : (runOp pm op).2 = pm := by
  cases op <;> rfl

/-- No sequence of queries mutates the engine state. -/
theorem runOps_state (pm : Phemap) (ops : List Op) : runOps pm ops = pm := by
  induction ops with
  | nil => rfl
  | cons op rest ih => rw [runOps, runOp_state]; exact ih

/-! ### Claim theorems -/

/-- C1: when the queried code resolves and the record's exclude range
parses into numeric bounds `(lo, hi)`, `get_phecode_exclusions` succeeds
with, in table order, the `phecode` of exactly the records whose
`phecode_num` lies in the closed interval `[lo, hi]`: every record inside
the bounds (endpoints included) contributes its code, every record
outside contributes nothing, and the queried code itself may appear. -/
theorem get_phecode_exclusions_range_filter (pm : Phemap) (c : String)
    (info : PhenotypeRecord) (lo hi : ℚ)
    (hinfo : get_phecode_info pm c = .ok info)
    (hrange : parseRange info.phecode_exclude_range.toList = some (lo, hi)) :
    ∃ v, get_phecode_exclusions pm c = .ok v ∧
      v = (pm.phecodes.filter
        (fun r => decide (lo ≤ r.phecode_num) && decide (r.phecode_num ≤ hi))).map
        (·.phecode) ∧
      (∀ r ∈ pm.phecodes, lo ≤ r.phecode_num → r.phecode_num ≤ hi →
        r.phecode ∈ v) ∧
      (∀ s ∈ v, ∃ r ∈ pm.phecodes,
        r.phecode = s ∧ lo ≤ r.phecode_num ∧ r.phecode_num ≤ hi) := by
  refine ⟨_, ?_, rfl, ?_, ?_⟩
  · simp only [get_phecode_exclusions, hinfo, hrange]
  · intro r hr h1 h2
    exact List.mem_map.mpr ⟨r, List.mem_filter.mpr ⟨hr, by simp [h1, h2]⟩, rfl⟩
  · intro s hs
    obtain ⟨r, hrf, hrs⟩ := List.mem_map.mp hs
    obtain ⟨hrm, hp⟩ := List.mem_filter.mp hrf
    simp at hp
    exact ⟨r, hrm, hrs, hp.1, hp.2⟩

/-- Witness for C1 at the docstring's asthma-like table: querying `"495"`
on `samplePm` filters the interval `[490, 498.99]`. -/
theorem get_phecode_exclusions_range_filter_witness :
    get_phecode_info samplePm "495" =
      .ok ⟨sampleRow "495" "490-498.99", mkRat 495 1⟩ ∧
    parseRange (String.toList "490-498.99") =
      some (mkRat 490 1, mkRat 49899 100) ∧
    ∃ v, get_phecode_exclusions samplePm "495" = .ok v ∧
      v = (samplePm.phecodes.filter
        (fun r => decide (mkRat 490 1 ≤ r.phecode_num) &&
          decide (r.phecode_num ≤ mkRat 49899 100))).map (·.phecode) ∧
      (∀ r ∈ samplePm.phecodes, mkRat 490 1 ≤ r.phecode_num →
        r.phecode_num ≤ mkRat 49899 100 → r.phecode ∈ v) ∧
      (∀ s ∈ v, ∃ r ∈ samplePm.phecodes,
        r.phecode = s ∧ mkRat 490 1 ≤ r.phecode_num ∧
          r.phecode_num ≤ mkRat 49899 100) :=
  ⟨by decide, by decide,
    get_phecode_exclusions_range_filter samplePm "495"
      ⟨sampleRow "495" "490-498.99", mkRat 495 1⟩ (mkRat 490 1) (mkRat 49899 100)
      (by decide) (by decide)⟩

/-- C10: when the queried code resolves and its exclude range parses but
no record's `phecode_num` lies within the bounds, `get_phecode_exclusions`
returns the empty list as a success instead of raising `NotFoundError` the
way the lookup operations do on zero matches. -/
theorem get_phecode_exclusions_empty_ok (pm : Phemap) (c : String)
    (info : PhenotypeRecord) (lo hi : ℚ)
    (hinfo : get_phecode_info pm c = .ok info)
    (hrange : parseRange info.phecode_exclude_range.toList = some (lo, hi))
    (hnone : ∀ r ∈ pm.phecodes, ¬(lo ≤ r.phecode_num ∧ r.phecode_num ≤ hi)) :
    get_phecode_exclusions pm c = .ok [] := by
  have hf : pm.phecodes.filter
      (fun r => decide (lo ≤ r.phecode_num) && decide (r.phecode_num ≤ hi)) = [] :=
    List.filter_eq_nil_iff.mpr fun r hr => by simpa using hnone r hr
  simp only [get_phecode_exclusions, hinfo, hrange, hf, List.map_nil]

/-- Witness for C10: the only record of `emptyRangePm` has code 100 and
exclude range `[200, 300]`, so the filter is empty yet the call
succeeds. -/
theorem get_phecode_exclusions_empty_ok_witness :
    get_phecode_info emptyRangePm "100" =
      .ok ⟨sampleRow "100" "200-300", mkRat 100 1⟩ ∧
    parseRange (String.toList "200-300") =
      some (mkRat 200 1, mkRat 300 1) ∧
    (∀ r ∈ emptyRangePm.phecodes,
      ¬(mkRat 200 1 ≤ r.phecode_num ∧ r.phecode_num ≤ mkRat 300 1)) ∧
    get_phecode_exclusions emptyRangePm "100" = .ok [] :=
  ⟨by decide, by decide, by decide,
    get_phecode_exclusions_empty_ok emptyRangePm "100"
      ⟨sampleRow "100" "200-300", mkRat 100 1⟩ (mkRat 200 1) (mkRat 300 1)
      (by decide) (by decide) (by decide)⟩

/-- C6: when the queried code resolves but the record's exclude range
does not split on `-` into exactly two numeric tokens,
`get_phecode_exclusions` fails with the malformed-input error; and this
surfaces only at the query, not at load time — `Phemap.init` succeeds on
any rows whose codes parse, exclude ranges unexamined. -/
theorem get_phecode_exclusions_malformed_range (pm : Phemap) (c : String)
    (info : PhenotypeRecord)
    (hinfo : get_phecode_info pm c = .ok info)
    (hbad : parseRange info.phecode_exclude_range.toList = none) :
    get_phecode_exclusions pm c = .error (.malformed info.phecode_exclude_range) ∧
    ∀ (source : List PhenotypeRow) (mapping : List MappingRow),
      (∀ r ∈ source, (parseDecimal r.phecode).isSome) →
      (∀ r ∈ mapping, (parseDecimal r.phecode).isSome) →
      (Phemap.init source mapping).isSome := by
  constructor
  · simp only [get_phecode_exclusions, hinfo, hbad]
  · intro source mapping hs hm
    have h1 : (source.mapM loadPhenotypeRecord).isSome :=
      mapM_option_isSome _ _ fun a ha => by
        have h := hs a ha
        unfold loadPhenotypeRecord
        cases hp : parseDecimal a.phecode with
        | none => rw [hp] at h; cases h
        | some q => rfl
    have h2 : (mapping.mapM loadMappingRecord).isSome :=
      mapM_option_isSome _ _ fun a ha => by
        have h := hm a ha
        unfold loadMappingRecord
        cases hp : parseDecimal a.phecode with
        | none => rw [hp] at h; cases h
        | some q => rfl
    unfold Phemap.init
    cases hms : source.mapM loadPhenotypeRecord with
    | none => rw [hms] at h1; cases h1
    | some ps =>
      cases hmm : mapping.mapM loadMappingRecord with
      | none => rw [hmm] at h2; cases h2
      | some ms => rfl

/-- Witness for C6: the exclude range `"100-1a1"` of `badRangePm`'s only
record fails to parse, the query raises, yet the same rows load fine. -/
theorem get_phecode_exclusions_malformed_range_witness :
    get_phecode_info badRangePm "100" =
      .ok ⟨sampleRow "100" "100-1a1", mkRat 100 1⟩ ∧
    parseRange (String.toList "100-1a1") = none ∧
    get_phecode_exclusions badRangePm "100" = .error (.malformed "100-1a1") ∧
    (Phemap.init badRangeSource []).isSome :=
  ⟨by decide, by decide,
    (get_phecode_exclusions_malformed_range badRangePm "100"
      ⟨sampleRow "100" "100-1a1", mkRat 100 1⟩ (by decide) (by decide)).1,
    (get_phecode_exclusions_malformed_range badRangePm "100"
      ⟨sampleRow "100" "100-1a1", mkRat 100 1⟩ (by decide) (by decide)).2
      badRangeSource [] (by decide) (by decide)⟩

/-- C9: when several records share the numeric value of the query key,
`get_phecode_info` succeeds with the first such record in table order. -/
theorem get_phecode_info_first_match (pm : Phemap) (c : String) (q : ℚ)
    (l1 l2 : List PhenotypeRecord) (r : PhenotypeRecord)
    (hq : parseDecimal c = some q)
    (htab : pm.phecodes = l1 ++ r :: l2)
    (hr : r.phecode_num = q)
    (hfirst : ∀ s ∈ l1, s.phecode_num ≠ q) :
    get_phecode_info pm c = .ok r := by
  have h1 : l1.filter (fun s => decide (s.phecode_num = q)) = [] :=
    List.filter_eq_nil_iff.mpr fun s hs => by simp [hfirst s hs]
  have hfilter : (l1 ++ r :: l2).filter (fun s => decide (s.phecode_num = q)) =
      r :: l2.filter (fun s => decide (s.phecode_num = q)) := by
    rw [List.filter_append, h1, List.nil_append,
      List.filter_cons_of_pos (by simp [hr])]
  simp only [get_phecode_info, hq, htab, hfilter]

/-- Witness for C9: `dupPm` stores the numeric value 8 as `"8"` and then
as `"008"`; querying `"008"` returns the earlier `"8"` record. -/
theorem get_phecode_info_first_match_witness :
    parseDecimal "008" = some (mkRat 8 1) ∧
    dupPm.phecodes =
      [⟨sampleRow "490" "490-498.99", mkRat 490 1⟩] ++
        ⟨sampleRow "8" "001-009.99", mkRat 8 1⟩ ::
          [⟨sampleRow "008" "001-009.99", mkRat 8 1⟩] ∧
    (⟨sampleRow "8" "001-009.99", mkRat 8 1⟩ : PhenotypeRecord).phecode_num =
      mkRat 8 1 ∧
    (∀ s ∈ [(⟨sampleRow "490" "490-498.99", mkRat 490 1⟩ : PhenotypeRecord)],
      s.phecode_num ≠ mkRat 8 1) ∧
    get_phecode_info dupPm "008" = .ok ⟨sampleRow "8" "001-009.99", mkRat 8 1⟩ :=
  ⟨by decide, by decide, by decide, by decide,
    get_phecode_info_first_match dupPm "008" (mkRat 8 1)
      [⟨sampleRow "490" "490-498.99", mkRat 490 1⟩]
      [⟨sampleRow "008" "001-009.99", mkRat 8 1⟩]
      ⟨sampleRow "8" "001-009.99", mkRat 8 1⟩
      (by decide) (by decide) (by decide) (by decide)⟩

/-- C3 counterexample: `"008"` is present as a code string in `dupPm`,
yet `get_phecode_info "008"` returns the earlier record whose code string
is `"8"` — the returned `phecode` is not the queried string. -/
theorem get_phecode_info_code_mismatch_cx :
    (∃ r ∈ dupPm.phecodes, r.phecode = "008") ∧
    (get_phecode_info dupPm "008").map (·.phecode) = .ok "8" ∧
    "8" ≠ "008" := by decide

/-- C3 (amended): for a code string `c` present in a well-formed table,
`get_phecode_info` always succeeds and the returned record comes from the
table with `phecode_num` equal to the numeric parse of `c`; when no other
record shares that numeric value, the returned record is moreover the very
row whose `phecode` equals `c`. -/
theorem get_phecode_info_unique_numeric_code (pm : Phemap) (c : String)
    (r : PhenotypeRecord)
    (hwf : ∀ s ∈ pm.phecodes, parseDecimal s.phecode = some s.phecode_num)
    (hr : r ∈ pm.phecodes) (hc : r.phecode = c) :
    (∃ m, get_phecode_info pm c = .ok m ∧ m ∈ pm.phecodes ∧
      some m.phecode_num = parseDecimal c ∧
      parseDecimal c = some r.phecode_num) ∧
    ((∀ s ∈ pm.phecodes, s.phecode_num = r.phecode_num → s = r) →
      get_phecode_info pm c = .ok r) := by
  have hq : parseDecimal c = some r.phecode_num := by
    rw [← hc]; exact hwf r hr
  cases hf : pm.phecodes.filter (fun s => decide (s.phecode_num = r.phecode_num)) with
  | nil =>
    exfalso
    have hmem : r ∈ pm.phecodes.filter
        (fun s => decide (s.phecode_num = r.phecode_num)) :=
      List.mem_filter.mpr ⟨hr, by simp⟩
    rw [hf] at hmem
    exact absurd hmem (List.not_mem_nil r)
  | cons a t =>
    have ha : a ∈ pm.phecodes.filter
        (fun s => decide (s.phecode_num = r.phecode_num)) := by
      rw [hf]; exact List.mem_cons_self a t
    obtain ⟨ham, hap⟩ := List.mem_filter.mp ha
    simp at hap
    constructor
    · refine ⟨a, ?_, ham, ?_, hq⟩
      · simp only [get_phecode_info, hq, hf]
      · rw [hq, hap]
    · intro huniq
      simp only [get_phecode_info, hq, hf]
      rw [huniq a ham hap]

/-- Witness for amended C3: `"495"` is stored once in `samplePm`, the
query succeeds unconditionally, and since no other record shares the
numeric value the `"495"` row itself comes back. -/
theorem get_phecode_info_unique_numeric_code_witness :
    (∀ s ∈ samplePm.phecodes, parseDecimal s.phecode = some s.phecode_num) ∧
    (⟨sampleRow "495" "490-498.99", mkRat 495 1⟩ : PhenotypeRecord) ∈
      samplePm.phecodes ∧
    (⟨sampleRow "495" "490-498.99", mkRat 495 1⟩ : PhenotypeRecord).phecode =
      "495" ∧
    (∃ m, get_phecode_info samplePm "495" = .ok m ∧ m ∈ samplePm.phecodes ∧
      some m.phecode_num = parseDecimal "495" ∧
      parseDecimal "495" = some (mkRat 495 1)) ∧
    get_phecode_info samplePm "495" =
      .ok ⟨sampleRow "495" "490-498.99", mkRat 495 1⟩ :=
  ⟨by decide, by decide, by decide,
    (get_phecode_info_unique_numeric_code samplePm "495"
      ⟨sampleRow "495" "490-498.99", mkRat 495 1⟩
      (by decide) (by decide) (by decide)).1,
    (get_phecode_info_unique_numeric_code samplePm "495"
      ⟨sampleRow "495" "490-498.99", mkRat 495 1⟩
      (by decide) (by decide) (by decide)).2 (by decide)⟩

/-- C5: `get_phecode_info` fails, with the not-found error carrying the
query key, exactly when the key does not parse as numeric or no record's
`phecode_num` equals its parse; in every other case the call succeeds,
returning a full record of the table whose `phecode_num` equals the
parse — there is no empty-success mode and no other error. -/
theorem get_phecode_info_error_iff (pm : Phemap) (c : String) :
    (get_phecode_info pm c = .error (.notFound c) ↔
      parseDecimal c = none ∨
        ∀ r ∈ pm.phecodes, some r.phecode_num ≠ parseDecimal c) ∧
    (∀ r, get_phecode_info pm c = .ok r →
      r ∈ pm.phecodes ∧ some r.phecode_num = parseDecimal c) ∧
    (¬(parseDecimal c = none ∨
        ∀ r ∈ pm.phecodes, some r.phecode_num ≠ parseDecimal c) →
      ∃ r, get_phecode_info pm c = .ok r) := by
  cases hp : parseDecimal c with
  | none => simp [get_phecode_info, hp]
  | some q =>
    cases hf : pm.phecodes.filter (fun r => decide (r.phecode_num = q)) with
    | nil =>
      have hall : ∀ r ∈ pm.phecodes, r.phecode_num ≠ q := by
        intro r hr
        have := List.filter_eq_nil_iff.mp hf r hr
        simpa using this
      refine ⟨?_, ?_, ?_⟩
      · simp only [get_phecode_info, hp, hf]
        constructor
        · intro _
          exact Or.inr fun r hr he => hall r hr (Option.some.inj he)
        · intro _; trivial
      · intro r hr
        simp only [get_phecode_info, hp, hf] at hr
        exact Except.noConfusion hr
      · intro hn
        exact absurd
          (Or.inr fun r hr he => hall r hr (Option.some.inj he)) hn
    | cons a t =>
      have ha : a ∈ pm.phecodes.filter (fun r => decide (r.phecode_num = q)) := by
        rw [hf]; exact List.mem_cons_self a t
      obtain ⟨ham, hap⟩ := List.mem_filter.mp ha
      simp at hap
      refine ⟨?_, ?_, ?_⟩
      · simp only [get_phecode_info, hp, hf]
        constructor
        · intro h; exact absurd h (by simp)
        · intro h
          rcases h with h | h
          · exact Option.noConfusion h
          · exact absurd (by rw [hap]) (h a ham)
      · intro r hr
        simp only [get_phecode_info, hp, hf] at hr
        cases hr
        exact ⟨ham, by rw [hap]⟩
      · intro _
        exact ⟨a, by simp only [get_phecode_info, hp, hf]⟩

/-- C4: `get_phecode_for_icd10` matches mapping rows by exact string
equality on the `icd10` column; it fails with the not-found error carrying
the key exactly when no row matches — never an empty success — and
otherwise returns the `phecode` of every matching row, in table order,
duplicates kept. -/
theorem get_phecode_for_icd10_spec (pm : Phemap) (d : String) :
    (get_phecode_for_icd10 pm d = .error (.notFound d) ↔
      ∀ r ∈ pm.phecodemap, r.icd10 ≠ d) ∧
    ((∃ r ∈ pm.phecodemap, r.icd10 = d) →
      get_phecode_for_icd10 pm d =
        .ok ((pm.phecodemap.filter (fun r => decide (r.icd10 = d))).map
          (·.phecode))) := by
  cases hf : pm.phecodemap.filter (fun r => decide (r.icd10 = d)) with
  | nil =>
    constructor
    · simp only [get_phecode_for_icd10, hf]
      constructor
      · intro _ r hr heq
        have := List.filter_eq_nil_iff.mp hf r hr
        simp at this
        exact this heq
      · intro _; trivial
    · rintro ⟨r, hr, hrd⟩
      exfalso
      have hmem : r ∈ pm.phecodemap.filter (fun s => decide (s.icd10 = d)) :=
        List.mem_filter.mpr ⟨hr, by simp [hrd]⟩
      rw [hf] at hmem
      exact absurd hmem (List.not_mem_nil r)
  | cons a t =>
    have ha : a ∈ pm.phecodemap.filter (fun r => decide (r.icd10 = d)) := by
      rw [hf]; exact List.mem_cons_self a t
    obtain ⟨ham, had⟩ := List.mem_filter.mp ha
    simp at had
    constructor
    · simp only [get_phecode_for_icd10, hf]
      constructor
      · intro h; exact absurd h (by simp)
      · intro hall; exact absurd had (hall a ham)
    · intro _
      simp only [get_phecode_for_icd10, hf]

/-- C2 counterexample: on `zeroMapPm`, `"B21.1"` appears in
`get_icd_for_phecode "071.1"`, but `get_phecode_for_icd10 "B21.1"`
returns `["71.1"]`, which does not contain the query string `"071.1"`. -/
theorem icd_phecode_roundtrip_cx :
    get_icd_for_phecode zeroMapPm "071.1" = .ok ["B21.1"] ∧
    "B21.1" ∈ ["B21.1"] ∧
    get_phecode_for_icd10 zeroMapPm "B21.1" = .ok ["71.1"] ∧
    "071.1" ∉ ["71.1"] := by decide

/-- C2 (amended): over a well-formed mapping table the two lookups are
inverses at the numeric level: when `d` appears in
`get_icd_for_phecode p`, the call `get_phecode_for_icd10 d` succeeds and
its result contains a phecode string whose numeric parse equals the parse
of `p` — though not necessarily the string `p` itself, since distinct
spellings can share a numeric value. -/
theorem icd_phecode_roundtrip_numeric (pm : Phemap) (p d : String)
    (ds : List String)
    (hwf : ∀ r ∈ pm.phecodemap, parseDecimal r.phecode = some r.phecode_num)
    (h : get_icd_for_phecode pm p = .ok ds) (hd : d ∈ ds) :
    ∃ qs, get_phecode_for_icd10 pm d = .ok qs ∧
      ∃ q ∈ qs, parseDecimal q = parseDecimal p := by
  cases hp : parseDecimal p with
  | none =>
    simp only [get_icd_for_phecode, hp] at h
    exact Except.noConfusion h
  | some x =>
    cases hf : pm.phecodemap.filter (fun r => decide (r.phecode_num = x)) with
    | nil =>
      simp only [get_icd_for_phecode, hp, hf] at h
      exact Except.noConfusion h
    | cons r0 rest =>
      simp only [get_icd_for_phecode, hp, hf] at h
      have hds : ds = (r0 :: rest).map (·.icd10) := (Except.ok.inj h).symm
      subst hds
      obtain ⟨r, hrmem0, hricd⟩ := List.mem_map.mp hd
      have hrf : r ∈ pm.phecodemap.filter (fun s => decide (s.phecode_num = x)) := by
        rw [hf]; exact hrmem0
      obtain ⟨hrm, hrx⟩ := List.mem_filter.mp hrf
      simp at hrx
      cases hg : pm.phecodemap.filter (fun s => decide (s.icd10 = d)) with
      | nil =>
        exfalso
        have hmem : r ∈ pm.phecodemap.filter (fun s => decide (s.icd10 = d)) :=
          List.mem_filter.mpr ⟨hrm, by simp [hricd]⟩
        rw [hg] at hmem
        exact absurd hmem (List.not_mem_nil r)
      | cons s0 srest =>
        refine ⟨(s0 :: srest).map (·.phecode), ?_, r.phecode, ?_, ?_⟩
        · simp only [get_phecode_for_icd10, hg]
        · apply List.mem_map.mpr
          refine ⟨r, ?_, rfl⟩
          have hmem : r ∈ pm.phecodemap.filter (fun s => decide (s.icd10 = d)) :=
            List.mem_filter.mpr ⟨hrm, by simp [hricd]⟩
          rw [hg] at hmem
          exact hmem
        · rw [hwf r hrm, hrx]

/-- Witness for amended C2 at the leading-zero table `zeroMapPm`. -/
theorem icd_phecode_roundtrip_numeric_witness :
    (∀ r ∈ zeroMapPm.phecodemap, parseDecimal r.phecode = some r.phecode_num) ∧
    get_icd_for_phecode zeroMapPm "071.1" = .ok ["B21.1"] ∧
    "B21.1" ∈ ["B21.1"] ∧
    ∃ qs, get_phecode_for_icd10 zeroMapPm "B21.1" = .ok qs ∧
      ∃ q ∈ qs, parseDecimal q = parseDecimal "071.1" :=
  ⟨by decide, by decide, by decide,
    icd_phecode_roundtrip_numeric zeroMapPm "071.1" "B21.1" ["B21.1"]
      (by decide) (by decide) (by decide)⟩

/-- C7: `get_all_phecodes` returns one record per loaded data row, and is
idempotent: however many queries run in between, repeating the call on
the same engine yields the same sequence, in table order. -/
theorem get_all_phecodes_count_idempotent (source : List PhenotypeRow)
    (mapping : List MappingRow) (pm : Phemap)
    (h : Phemap.init source mapping = some pm) :
    (get_all_phecodes pm).length = source.length ∧
    ∀ ops : List Op,
      (runOp (runOps pm ops) Op.getAll).1 =
        .ok (.records (get_all_phecodes pm)) := by
  obtain ⟨hs, _⟩ := init_eq_some source mapping pm h
  constructor
  · exact mapM_option_length loadPhenotypeRecord source pm.phecodes hs
  · intro ops
    rw [runOps_state]
    rfl

/-- Witness for C7 on the loaded `samplePm`. -/
theorem get_all_phecodes_count_idempotent_witness :
    Phemap.init sampleSource sampleMapping = some samplePm ∧
    (get_all_phecodes samplePm).length = sampleSource.length ∧
    (runOp (runOps samplePm [Op.getInfo "495", Op.getAll]) Op.getAll).1 =
      .ok (.records (get_all_phecodes samplePm)) :=
  ⟨by decide,
    (get_all_phecodes_count_idempotent sampleSource sampleMapping samplePm
      (by decide)).1,
    (get_all_phecodes_count_idempotent sampleSource sampleMapping samplePm
      (by decide)).2 [Op.getInfo "495", Op.getAll]⟩

/-- C8: every query operation, succeeding or failing, leaves the engine
state unchanged, and so does any sequence of queries — the state after
any call equals the state produced at construction. -/
theorem queries_preserve_state (pm : Phemap) :
    (∀ op : Op, (runOp pm op).2 = pm) ∧
    ∀ ops : List Op, runOps pm ops = pm :=
  ⟨runOp_state pm, runOps_state pm⟩
